import Mathlib

/-!
Shallow embedding of the Instalker profile-synchronization engine
(`src/core/instagram.py`), the JSON roster importer
(`src/core/import_users.py`, `src/utils/import_users.py`) and the
file-retention manager (`src/core/file_manager.py`).
-/

namespace Instalker

/-- Snapshot of a remote profile as fetched by the loader
(`instaloader.Profile` fields read by `Instagram._upsert_profile_to_db`). -/
structure RemoteProfile where
  username : String
  fullName : String
  biography : String
  followers : Nat
  followees : Nat
  mediacount : Nat
  businessCategoryName : Option String
  externalUrl : Option String
  isPrivate : Bool
  blockedByViewer : Bool
  followedByViewer : Bool
  followsViewer : Bool
  biographyHashtags : List String
  biographyMentions : List String
  deriving Repr, DecidableEq

/-- One row of the `profiles` table (`src/core/db.py`, class `Profile`).
Hashtag and mention associations are represented by the text values of the
associated rows; `hashtags`/`mentions` tables are deduplicated by text, so
text determines the row.  `updated_at` is database-managed and omitted. -/
structure ProfileRow where
  username : String
  fullName : String
  biography : String
  followers : Nat
  followees : Nat
  postCount : Nat
  businessCategoryName : Option String
  externalUrl : Option String
  isPrivate : Bool
  blockedByViewer : Bool
  followedByViewer : Bool
  followsViewer : Bool
  lastChecked : Nat
  createdAt : Nat
  hashtags : List String
  mentions : List String
  deriving Repr, DecidableEq

/-- The relational store: the `profiles` table plus the `hashtags` and
`mentions` tables (each row identified by its unique text value). -/
structure DbState where
  profiles : List ProfileRow
  hashtagTable : List String
  mentionTable : List String
  deriving Repr, DecidableEq

/-- The database's uniqueness constraints: `profiles.username`,
`hashtags.tag` and `mentions.username` are UNIQUE columns, and the
association tables have composite primary keys, so a profile cannot be
linked twice to the same hashtag/mention row. -/
def dbOk (s : DbState) : Bool :=
  (s.profiles.map (·.username)).Nodup
    && s.hashtagTable.Nodup
    && s.mentionTable.Nodup
    && s.profiles.all (fun r => r.hashtags.Nodup && r.mentions.Nodup)

/-- Code-point lexicographic order on character lists, used to model the
order produced by Python's `sorted` on strings. -/
def lexLe : List Char → List Char → Bool
  | [], _ => true
  | _ :: _, [] => false
  | a :: as, b :: bs =>
    if a.toNat < b.toNat then true
    else if b.toNat < a.toNat then false
    else lexLe as bs

/-- Python's string comparison: code-point lexicographic order. -/
def strLe (a b : String) : Bool := lexLe a.data b.data

/-- `sorted(self.users)`: the roster set iterated in sorted order
(`Instagram._download`). -/
def sortedRoster (users : List String) : List String :=
  users.insertionSort (fun a b => strLe a b)

/-- `Instagram._upsert_profile_to_db` (src/core/instagram.py lines 163-232).

The session is created with `autoflush=False`, so the per-token
`SELECT ... one_or_none()` lookups see only the committed tables, never the
rows `add`ed earlier in the same call: a token absent from the table yields
a new pending row each time it occurs in the payload.  `one_or_none` raises
when two rows match, which the `except` clause turns into rollback + `None`.
The final `commit` succeeds exactly when no external persistence failure is
injected (`commitOk`) and the resulting state satisfies the database's
uniqueness constraints (`dbOk`); on failure the session is rolled back and
`None` is returned.

`freshRow` is the `profile_data` dictionary written to the row: every
scalar field from the fetched profile plus `last_checked := now`; the
hashtag/mention association lists are replaced wholesale by the payload's
token lists.  `createdAt` is the existing row's value on update and `now`
on create. -/
def freshRow (p : RemoteProfile) (now createdAt : Nat) : ProfileRow :=
  { username := p.username
    fullName := p.fullName
    biography := p.biography
    followers := p.followers
    followees := p.followees
    postCount := p.mediacount
    businessCategoryName := p.businessCategoryName
    externalUrl := p.externalUrl
    isPrivate := p.isPrivate
    blockedByViewer := p.blockedByViewer
    followedByViewer := p.followedByViewer
    followsViewer := p.followsViewer
    lastChecked := now
    createdAt := createdAt
    hashtags := p.biographyHashtags
    mentions := p.biographyMentions }

/-- `Instagram._upsert_profile_to_db`, continued: look up the existing row
by username, build the row contents, create or update, then commit. -/
def upsertProfile (s : DbState) (p : RemoteProfile) (now : Nat) (commitOk : Bool) :
    Option ProfileRow × DbState :=
  let existingRows := s.profiles.filter (fun r => r.username = p.username)
  if 2 ≤ existingRows.length then (none, s)
  else
    let newHt := p.biographyHashtags.filter (fun t => ¬ t ∈ s.hashtagTable)
    let newMn := p.biographyMentions.filter (fun t => ¬ t ∈ s.mentionTable)
    let row : ProfileRow := freshRow p now
      (match existingRows.head? with
        | some r => r.createdAt
        | none => now)
    let profiles' := match existingRows.head? with
      | some _ => s.profiles.map (fun r => if r.username = p.username then row else r)
      | none => s.profiles ++ [row]
    let s' : DbState := {
      profiles := profiles'
      hashtagTable := s.hashtagTable ++ newHt
      mentionTable := s.mentionTable ++ newMn }
    if commitOk && dbOk s' then (some row, s') else (none, s)

/-- A content-retrieval call issued by the dispatcher. -/
inductive DownloadAction where
  /-- `loader.download_profiles({profile}, tagged=..., stories=..., reels=...,
  latest_stamps=...)`. -/
  | fullContent (tagged stories reels : Bool)
  /-- `loader.download_highlights(profile, fast_update=True)`. -/
  | downloadHighlights
  /-- `loader.download_profilepic_if_new(profile, latest_stamps)`. -/
  | profilePicIfNew
  deriving Repr, DecidableEq

/-- `Instagram._download_profile_content` (lines 234-257): full content with
tagged posts excluded, stories and reels enabled, then highlights only when
the run's highlights flag is set (highlight failure is caught locally). -/
def downloadProfileContentActions (highlights : Bool) : List DownloadAction :=
  DownloadAction.fullContent false true true ::
    (if highlights then [DownloadAction.downloadHighlights] else [])

/-- The per-user outcome observable in `Instagram._download`'s loop body. -/
inductive UserOutcome where
  /-- `_get_instagram_profile` returned `None` (not found, connection or
  protocol error, all caught and logged inside it) — `continue`. -/
  | fetchFailed (user : String)
  /-- `_upsert_profile_to_db` returned `None` — error log, `continue`. -/
  | dbFailed (user : String)
  /-- `db_profile.is_private and not profile.followed_by_viewer` —
  `continue` with no download call. -/
  | persistedOnly (user : String)
  /-- `_download_profile_content(profile)` invoked. -/
  | persistedDispatched (user : String) (actions : List DownloadAction)
  deriving Repr, DecidableEq

/-- One iteration of the loop in `Instagram._download` (lines 122-161). -/
def downloadStep (fetch : String → Option RemoteProfile) (commitOk : String → Bool)
    (now : Nat) (highlights : Bool) :
    DbState × List UserOutcome → String → DbState × List UserOutcome
  | (s, outs), user =>
    match fetch user with
    | none => (s, outs ++ [UserOutcome.fetchFailed user])
    | some p =>
      match upsertProfile s p now (commitOk user) with
      | (none, s') => (s', outs ++ [UserOutcome.dbFailed user])
      | (some row, s') =>
        if row.isPrivate && !p.followedByViewer then
          (s', outs ++ [UserOutcome.persistedOnly user])
        else
          (s', outs ++ [UserOutcome.persistedDispatched user
            (downloadProfileContentActions highlights)])

/-- The outcome `downloadStep` produces for one user when persistence
always succeeds: it then depends only on the fetch result and the fetched
privacy flags (the persisted row's `is_private` equals the payload's).
Used to state the state-independence of successful runs. -/
def pureOutcome (fetch : String → Option RemoteProfile) (highlights : Bool)
    (u : String) : UserOutcome :=
  match fetch u with
  | none => UserOutcome.fetchFailed u
  | some p =>
    if p.isPrivate && !p.followedByViewer then UserOutcome.persistedOnly u
    else UserOutcome.persistedDispatched u (downloadProfileContentActions highlights)

/-- `Instagram._download`: iterate the sorted roster, isolating each user's
failures, threading the database state. -/
def downloadRun (s : DbState) (now : Nat) (highlights : Bool) (users : List String)
    (fetch : String → Option RemoteProfile) (commitOk : String → Bool) :
    DbState × List UserOutcome :=
  (sortedRoster users).foldl (downloadStep fetch commitOk now highlights) (s, [])

/-- Result of `Instagram.__init__` plus `Instagram.run`. -/
inductive RunOutcome where
  /-- `__init__`: `raise SystemExit("No Firefox cookies.sqlite file found.")`. -/
  | fatalNoCookieFile
  /-- `run`: empty roster — warning logged, plain `return`. -/
  | warnedEmptyRoster
  /-- `_import_session` raised `SystemExit` (no cookies, login failure, or
  cookie-database error). -/
  | fatalAuthFailed
  /-- `_import_session` succeeded and `_download` ran to completion. -/
  | completed (outcomes : List UserOutcome)
  deriving Repr, DecidableEq

/-- Whether the whole run aborted with `SystemExit`. -/
def RunOutcome.isFatal : RunOutcome → Bool
  | RunOutcome.fatalNoCookieFile => true
  | RunOutcome.fatalAuthFailed => true
  | _ => false

/-- `Instagram.__init__` (cookie-file check) followed by `Instagram.run`
(lines 106-120): empty roster short-circuits before `_import_session`. -/
def instagramRun (cookieFile : Option String) (users : List String) (authOk : Bool)
    (s : DbState) (now : Nat) (highlights : Bool)
    (fetch : String → Option RemoteProfile) (commitOk : String → Bool) : RunOutcome :=
  match cookieFile with
  | none => RunOutcome.fatalNoCookieFile
  | some _ =>
    if users.isEmpty then RunOutcome.warnedEmptyRoster
    else if !authOk then RunOutcome.fatalAuthFailed
    else RunOutcome.completed (downloadRun s now highlights users fetch commitOk).2

/-! ## Roster importer (`src/core/import_users.py`, `src/utils/import_users.py`) -/

/-- Python's `str.lower()` applied to a username (the importer's usernames
are ASCII handles, for which per-character lowercasing matches). -/
def pyLower (s : String) : String := String.mk (s.data.map Char.toLower)

/-- `load_users_from_json` / `UserImporter._load_users_from_json`:
`{str(user).lower() for user in data}` — lowercase every entry and
deduplicate (the Python set is modelled by a first-occurrence dedup list;
`_build_user_map` gives every member of each input the same value, so the
iteration order of the set does not affect the resulting map). -/
def loadUsersFromJson (entries : List String) : List String :=
  (entries.map pyLower).dedup

/-- `all_users[user] = value` on a Python dict, modelled on an association
list with unique keys: replace the value at the key if present, else append
the new pair (dict assignment keeps the key's insertion position). -/
def mapSet (m : List (String × Bool)) (u : String) (b : Bool) : List (String × Bool) :=
  match m with
  | [] => [(u, b)]
  | kv :: rest => if kv.1 = u then (u, b) :: rest else kv :: mapSet rest u b

/-- `all_users.get(user)`: first-match lookup. -/
def mapGet (m : List (String × Bool)) (u : String) : Option Bool :=
  (m.find? (fun kv => kv.1 = u)).map (·.2)

/-- `UserImporter._build_user_map` (src/utils/import_users.py lines 58-65) and
the identical loops in `import_users_from_json` (src/core/import_users.py
lines 83-91): public users first with value `False`, then private users with
value `True` (overwriting any public entry). -/
def buildUserMap (publicUsers privateUsers : List String) : List (String × Bool) :=
  let m1 := publicUsers.foldl (fun m u => mapSet m u false) []
  privateUsers.foldl (fun m u => mapSet m u true) m1

/-- Membership in the private tracking set derived from the user map
(`True` means private). -/
def inPrivateSet (m : List (String × Bool)) (u : String) : Prop :=
  mapGet m u = some true

/-- Membership in the public tracking set derived from the user map
(`False` means public). -/
def inPublicSet (m : List (String × Bool)) (u : String) : Prop :=
  mapGet m u = some false

instance (m : List (String × Bool)) (u : String) : Decidable (inPrivateSet m u) := by
  unfold inPrivateSet; infer_instance

instance (m : List (String × Bool)) (u : String) : Decidable (inPublicSet m u) := by
  unfold inPublicSet; infer_instance

/-! ## File retention manager (`src/core/file_manager.py`) -/

/-- `FileStatus = Literal["removed", "failed", "skipped"]`. -/
inductive FileStatus where
  | removed
  | failed
  | skipped
  deriving Repr, DecidableEq

/-- A discovered media file together with the filesystem behaviour the
sweeps observe on it: `ext` is the lowercased suffix, `mtime` the stat
`st_mtime` in seconds since the epoch, `dims` the pixel size `Image.open`
reports (`none` when opening raises `OSError`), `statOk` whether `stat()`
succeeds (the `os.stat` fallback is assumed to fail with it), and
`unlinkOk` the result of `FileManager._remove_file` (unlink with an
`os.remove` fallback; an already-missing file counts as success). -/
structure MediaFile where
  path : String
  ext : String
  sizeBytes : Nat
  mtime : Int
  dims : Option (Nat × Nat)
  statOk : Bool
  unlinkOk : Bool
  deriving Repr, DecidableEq

/-- `FileManager.IMAGE_EXTENSIONS`. -/
def imageExtensions : List String := [".jpg", ".jpeg", ".png", ".webp"]

/-- `FileManager.LARGE_FILE_THRESHOLD`. -/
def largeFileThreshold : Nat := 100000

/-- `FileManager._is_file_older_than` (lines 253-304): a non-positive
`st_mtime` is treated as invalid (`False`), a stat failure is logged and
yields `False`; otherwise compare the modification instant with
`datetime.now() - time_delta` (`deltaSecs` is the threshold in seconds,
`now` the current epoch time). -/
def isFileOlderThan (now deltaSecs : Int) (f : MediaFile) : Bool :=
  if !f.statOk then false
  else if f.mtime ≤ 0 then false
  else f.mtime < now - deltaSecs

/-- `FileManager._process_old_file` (lines 85-107). -/
def processOldFile (now deltaSecs : Int) (f : MediaFile) : FileStatus :=
  if isFileOlderThan now deltaSecs f then
    if f.unlinkOk then FileStatus.removed else FileStatus.failed
  else FileStatus.skipped

/-- `FileManager._process_small_file` (lines 178-214): stat failure is caught
by the outer handler (`failed`); a large file is skipped before the image is
ever opened; an `OSError` from `Image.open` is caught locally and the file
is skipped; an image meeting both minimum dimensions is skipped; otherwise
removal is attempted. -/
def processSmallFile (minW minH : Nat) (f : MediaFile) : FileStatus :=
  if !f.statOk then FileStatus.failed
  else if largeFileThreshold < f.sizeBytes then FileStatus.skipped
  else
    match f.dims with
    | none => FileStatus.skipped
    | some (w, h) =>
      if minW ≤ w ∧ minH ≤ h then FileStatus.skipped
      else if f.unlinkOk then FileStatus.removed
      else FileStatus.failed

/-- The removal summary logged by `FileManager._log_removal_summary`
(lines 332-352): the removed count and every failed path. -/
structure RemovalSummary where
  removedCount : Nat
  failedPaths : List String
  deriving Repr, DecidableEq

/-- One iteration of the result-merging loop shared by both sweeps:
`removed` increments the count, `failed` records the path, `skipped` is
ignored. -/
def summarizeStep (acc : RemovalSummary) (r : FileStatus × String) : RemovalSummary :=
  match r.1 with
  | FileStatus.removed => { acc with removedCount := acc.removedCount + 1 }
  | FileStatus.failed => { acc with failedPaths := acc.failedPaths ++ [r.2] }
  | FileStatus.skipped => acc

/-- The result-merging loop shared by both sweeps: count `removed` results
and collect the paths of `failed` results. -/
def summarize (results : List (FileStatus × String)) : RemovalSummary :=
  results.foldl summarizeStep { removedCount := 0, failedPaths := [] }

/-- `FileManager.remove_old_files` (lines 55-83): evaluate every discovered
media file (`executor.map` preserves order) and log the summary
unconditionally. -/
def removeOldFiles (now deltaSecs : Int) (files : List MediaFile) :
    Option RemovalSummary :=
  some (summarize (files.map (fun f => (processOldFile now deltaSecs f, f.path))))

/-- `FileManager._get_image_files` (lines 166-176). -/
def getImageFiles (files : List MediaFile) : List MediaFile :=
  files.filter (fun f => f.ext ∈ imageExtensions)

/-- `FileManager.remove_small_images` (lines 109-164): when the image list is
empty the method logs "No image files found to process" and returns with no
removal summary (`none`); otherwise every image file is processed (batching
and `as_completed` only reorder results, which the summary's count and
failed-path collection do not depend on; the model keeps discovery order)
and the summary is logged. -/
def removeSmallImages (minW minH : Nat) (files : List MediaFile) :
    Option RemovalSummary :=
  let imageFiles := getImageFiles files
  if imageFiles.isEmpty then none
  else
    some (summarize (imageFiles.map (fun f => (processSmallFile minW minH f, f.path))))

/-! ## Concrete example inputs -/

/-- A database with no rows yet. -/
def emptyDb : DbState := { profiles := [], hashtagTable := [], mentionTable := [] }

/-- A fetched profile that is private and not followed by the viewer
(the spec's "alice" scenario). -/
def alicePrivate : RemoteProfile :=
  { username := "alice", fullName := "Alice", biography := "", followers := 10
    followees := 5, mediacount := 3, businessCategoryName := none, externalUrl := none
    isPrivate := true, blockedByViewer := false, followedByViewer := false
    followsViewer := false, biographyHashtags := [], biographyMentions := [] }

/-- A fetched profile that is public (the spec's "bob" scenario). -/
def bobPublic : RemoteProfile :=
  { username := "bob", fullName := "Bob", biography := "#sun @amy", followers := 20
    followees := 7, mediacount := 9, businessCategoryName := none, externalUrl := none
    isPrivate := false, blockedByViewer := false, followedByViewer := false
    followsViewer := false, biographyHashtags := ["sun"], biographyMentions := ["amy"] }

/-- A public profile for a third roster entry. -/
def carolPublic : RemoteProfile :=
  { username := "carol", fullName := "Carol", biography := "", followers := 30
    followees := 9, mediacount := 4, businessCategoryName := none, externalUrl := none
    isPrivate := false, blockedByViewer := false, followedByViewer := true
    followsViewer := false, biographyHashtags := [], biographyMentions := [] }

/-- A fetch oracle for the spec's example scenario: "alice" and "bob"
resolve, every other username fails to fetch. -/
def exampleFetch : String → Option RemoteProfile
  | "alice" => some alicePrivate
  | "bob" => some bobPublic
  | _ => none

/-- A fetch oracle where "dave" is unfetchable and "bob"/"carol" resolve to
public profiles. -/
def rosterFetch : String → Option RemoteProfile
  | "bob" => some bobPublic
  | "carol" => some carolPublic
  | _ => none

/-- A small image-typed file that `Image.open` cannot decode. -/
def undecodableFile : MediaFile :=
  { path := "d/u.jpg", ext := ".jpg", sizeBytes := 4096, mtime := 1000
    dims := none, statOk := true, unlinkOk := true }

/-- A decodable 100x100 image below the `(256, 256)` minimum. -/
def smallImageFile : MediaFile :=
  { path := "d/s.jpg", ext := ".jpg", sizeBytes := 4096, mtime := 1000
    dims := some (100, 100), statOk := true, unlinkOk := true }

/-- A decodable 300x300 image meeting the `(256, 256)` minimum. -/
def bigImageFile : MediaFile :=
  { path := "d/b.png", ext := ".png", sizeBytes := 9000, mtime := 1000
    dims := some (300, 300), statOk := true, unlinkOk := true }

/-- An epoch time used as "now" in the age-sweep examples
(2023-11-14T22:13:20Z). -/
def exampleNow : Int := 1700000000

/-- Thirty days in seconds, the default age cutoff. -/
def thirtyDays : Int := 2592000

/-- A file whose `st_mtime` is 0: its modification instant (1970) is far
older than any recent cutoff, yet `_is_file_older_than` treats it as
invalid. -/
def epochMtimeFile : MediaFile :=
  { path := "d/e.mp4", ext := ".mp4", sizeBytes := 4096, mtime := 0
    dims := none, statOk := true, unlinkOk := true }

/-- A file last modified 40 days before `exampleNow`. -/
def fortyDayOldFile : MediaFile :=
  { path := "d/old.jpg", ext := ".jpg", sizeBytes := 4096, mtime := exampleNow - 3456000
    dims := some (500, 500), statOk := true, unlinkOk := true }

/-- A file last modified 10 days before `exampleNow`. -/
def tenDayOldFile : MediaFile :=
  { path := "d/new.jpg", ext := ".jpg", sizeBytes := 4096, mtime := exampleNow - 864000
    dims := some (500, 500), statOk := true, unlinkOk := true }

/-! ## Helper lemmas -/

theorem summarize_foldl (rs : List (FileStatus × String)) (acc : RemovalSummary) :
    rs.foldl summarizeStep acc
      = { removedCount :=
            acc.removedCount + (rs.filter (fun r => r.1 = FileStatus.removed)).length
          failedPaths :=
            acc.failedPaths ++ (rs.filter (fun r => r.1 = FileStatus.failed)).map (·.2) } := by
  induction rs generalizing acc with
  | nil => simp
  | cons r rest ih =>
    rw [List.foldl_cons, ih]
    rcases r with ⟨st, pth⟩
    cases st <;> simp [summarizeStep, List.filter_cons] <;> omega

theorem summarize_spec (rs : List (FileStatus × String)) :
    summarize rs
      = { removedCount := (rs.filter (fun r => r.1 = FileStatus.removed)).length
          failedPaths := (rs.filter (fun r => r.1 = FileStatus.failed)).map (·.2) } := by
  rw [summarize, summarize_foldl]; simp

theorem summarize_failed_mem (rs : List (FileStatus × String)) (st : FileStatus) (pth : String)
    (h : (st, pth) ∈ rs) (hst : st = FileStatus.failed) :
    pth ∈ (summarize rs).failedPaths := by
  rw [summarize_spec]
  exact List.mem_map.mpr ⟨(st, pth), List.mem_filter.mpr ⟨h, by simp [hst]⟩, rfl⟩

theorem filter_username_eq_nil {l : List ProfileRow} {u : String}
    (h : ∀ r ∈ l, r.username ≠ u) :
    l.filter (fun r => r.username = u) = [] := by
  rw [List.filter_eq_nil_iff]
  intro r hr
  simpa using h r hr

theorem filter_username_length_le_one (l : List ProfileRow) (u : String)
    (h : (l.map (·.username)).Nodup) :
    (l.filter (fun r => r.username = u)).length ≤ 1 := by
  induction l with
  | nil => simp
  | cons r rest ih =>
    rw [List.map_cons, List.nodup_cons] at h
    by_cases hr : r.username = u
    · rw [List.filter_cons_of_pos (by simpa using hr)]
      have hnil : rest.filter (fun x => x.username = u) = [] := by
        apply filter_username_eq_nil
        intro x hx hxu
        exact h.1 (List.mem_map.mpr ⟨x, hx, by rw [hxu, hr]⟩)
      simp [hnil]
    · rw [List.filter_cons_of_neg (by simpa using hr)]
      exact ih h.2

theorem filter_map_comm (l : List ProfileRow) (f : ProfileRow → ProfileRow)
    (p : ProfileRow → Bool) :
    (l.map f).filter p = (l.filter (fun r => p (f r))).map f := by
  induction l with
  | nil => rfl
  | cons r rest ih =>
    by_cases h : p (f r) = true
    · simp [List.filter_cons, h, ih]
    · simp [List.filter_cons, h, ih]

theorem dbOk_iff (s : DbState) :
    dbOk s = true
      ↔ (s.profiles.map (·.username)).Nodup ∧ s.hashtagTable.Nodup
        ∧ s.mentionTable.Nodup
        ∧ ∀ r ∈ s.profiles, r.hashtags.Nodup ∧ r.mentions.Nodup := by
  simp [dbOk, List.all_eq_true, and_assoc]

theorem upsertProfile_create_eq (s : DbState) (p : RemoteProfile) (now : Nat)
    (commitOk : Bool)
    (hE : s.profiles.filter (fun r => r.username = p.username) = []) :
    upsertProfile s p now commitOk =
      (if commitOk && dbOk
          { profiles := s.profiles ++ [freshRow p now now]
            hashtagTable := s.hashtagTable
              ++ p.biographyHashtags.filter (fun t => ¬ t ∈ s.hashtagTable)
            mentionTable := s.mentionTable
              ++ p.biographyMentions.filter (fun t => ¬ t ∈ s.mentionTable) }
        then (some (freshRow p now now),
          { profiles := s.profiles ++ [freshRow p now now]
            hashtagTable := s.hashtagTable
              ++ p.biographyHashtags.filter (fun t => ¬ t ∈ s.hashtagTable)
            mentionTable := s.mentionTable
              ++ p.biographyMentions.filter (fun t => ¬ t ∈ s.mentionTable) })
        else (none, s)) := by
  unfold upsertProfile
  rw [hE]
  simp

theorem upsertProfile_update_eq (s : DbState) (p : RemoteProfile) (now : Nat)
    (commitOk : Bool) (r0 : ProfileRow)
    (hE : s.profiles.filter (fun r => r.username = p.username) = [r0]) :
    upsertProfile s p now commitOk =
      (if commitOk && dbOk
          { profiles := s.profiles.map
              (fun r => if r.username = p.username then freshRow p now r0.createdAt else r)
            hashtagTable := s.hashtagTable
              ++ p.biographyHashtags.filter (fun t => ¬ t ∈ s.hashtagTable)
            mentionTable := s.mentionTable
              ++ p.biographyMentions.filter (fun t => ¬ t ∈ s.mentionTable) }
        then (some (freshRow p now r0.createdAt),
          { profiles := s.profiles.map
              (fun r => if r.username = p.username then freshRow p now r0.createdAt else r)
            hashtagTable := s.hashtagTable
              ++ p.biographyHashtags.filter (fun t => ¬ t ∈ s.hashtagTable)
            mentionTable := s.mentionTable
              ++ p.biographyMentions.filter (fun t => ¬ t ∈ s.mentionTable) })
        else (none, s)) := by
  unfold upsertProfile
  rw [hE]
  simp

theorem upsertProfile_fail (s : DbState) (p : RemoteProfile) (now : Nat) :
    upsertProfile s p now false = (none, s) := by
  unfold upsertProfile
  simp

theorem upsertProfile_success (s : DbState) (p : RemoteProfile) (now : Nat)
    (hwf : dbOk s = true)
    (h1 : p.biographyHashtags.Nodup) (h2 : p.biographyMentions.Nodup) :
    ∃ row s',
      upsertProfile s p now true = (some row, s')
      ∧ row.username = p.username
      ∧ row.isPrivate = p.isPrivate
      ∧ row.hashtags = p.biographyHashtags
      ∧ row.mentions = p.biographyMentions
      ∧ dbOk s' = true
      ∧ s'.profiles.filter (fun r => r.username = p.username) = [row]
      ∧ s'.hashtagTable
          = s.hashtagTable ++ p.biographyHashtags.filter (fun t => ¬ t ∈ s.hashtagTable)
      ∧ s'.mentionTable
          = s.mentionTable ++ p.biographyMentions.filter (fun t => ¬ t ∈ s.mentionTable) := by
  rcases (dbOk_iff s).mp hwf with ⟨hnd, hht, hmn, hassoc⟩
  have hhtTab : (s.hashtagTable
      ++ p.biographyHashtags.filter (fun t => ¬ t ∈ s.hashtagTable)).Nodup := by
    refine hht.append (h1.filter _) ?_
    intro a ha hb
    rcases List.mem_filter.mp hb with ⟨-, hdec⟩
    exact (of_decide_eq_true hdec) ha
  have hmnTab : (s.mentionTable
      ++ p.biographyMentions.filter (fun t => ¬ t ∈ s.mentionTable)).Nodup := by
    refine hmn.append (h2.filter _) ?_
    intro a ha hb
    rcases List.mem_filter.mp hb with ⟨-, hdec⟩
    exact (of_decide_eq_true hdec) ha
  have hlen := filter_username_length_le_one s.profiles p.username hnd
  cases hE : s.profiles.filter (fun r => r.username = p.username) with
  | nil =>
    have hnotmem : ∀ r ∈ s.profiles, r.username ≠ p.username := by
      intro r hr hru
      have : r ∈ s.profiles.filter (fun x => x.username = p.username) :=
        List.mem_filter.mpr ⟨hr, by simpa using hru⟩
      rw [hE] at this
      cases this
    have hdb : dbOk
        { profiles := s.profiles ++ [freshRow p now now]
          hashtagTable := s.hashtagTable
            ++ p.biographyHashtags.filter (fun t => ¬ t ∈ s.hashtagTable)
          mentionTable := s.mentionTable
            ++ p.biographyMentions.filter (fun t => ¬ t ∈ s.mentionTable) } = true := by
      refine (dbOk_iff _).mpr ⟨?_, hhtTab, hmnTab, ?_⟩
      · rw [List.map_append]
        refine hnd.append (List.nodup_singleton _) ?_
        intro a ha hb
        rcases List.mem_map.mp ha with ⟨r, hr, hra⟩
        rcases List.mem_singleton.mp hb with rfl
        exact hnotmem r hr (by simpa [freshRow] using hra)
      · intro r hr
        rcases List.mem_append.mp hr with hr | hr
        · exact hassoc r hr
        · rcases List.mem_singleton.mp hr with rfl
          exact ⟨by simpa [freshRow] using h1, by simpa [freshRow] using h2⟩
    refine ⟨freshRow p now now, _, ?_, by simp [freshRow], by simp [freshRow],
      by simp [freshRow], by simp [freshRow], hdb, ?_, rfl, rfl⟩
    · rw [upsertProfile_create_eq s p now true hE, hdb]
      simp
    · rw [List.filter_append, filter_username_eq_nil hnotmem]
      simp [freshRow]
  | cons r0 tail =>
    have htail : tail = [] := by
      rw [hE] at hlen
      simp only [List.length_cons] at hlen
      have : tail.length = 0 := by omega
      exact List.length_eq_zero.mp this
    subst htail
    have hr0 : r0 ∈ s.profiles.filter (fun r => r.username = p.username) := by
      rw [hE]; exact List.mem_singleton.mpr rfl
    rcases List.mem_filter.mp hr0 with ⟨hr0mem, hr0u⟩
    have hr0u : r0.username = p.username := by simpa using hr0u
    have husernames : (s.profiles.map
        (fun r => if r.username = p.username then freshRow p now r0.createdAt else r)).map
          (·.username) = s.profiles.map (·.username) := by
      rw [List.map_map]
      refine List.map_congr_left ?_
      intro r _
      by_cases h : r.username = p.username
      · simp [h, freshRow]
      · simp [h]
    have hdb : dbOk
        { profiles := s.profiles.map
            (fun r => if r.username = p.username then freshRow p now r0.createdAt else r)
          hashtagTable := s.hashtagTable
            ++ p.biographyHashtags.filter (fun t => ¬ t ∈ s.hashtagTable)
          mentionTable := s.mentionTable
            ++ p.biographyMentions.filter (fun t => ¬ t ∈ s.mentionTable) } = true := by
      refine (dbOk_iff _).mpr ⟨?_, hhtTab, hmnTab, ?_⟩
      · rw [husernames]; exact hnd
      · intro r hr
        rcases List.mem_map.mp hr with ⟨x, hx, hxr⟩
        by_cases h : x.username = p.username
        · rw [if_pos h] at hxr
          subst hxr
          exact ⟨by simpa [freshRow] using h1, by simpa [freshRow] using h2⟩
        · rw [if_neg h] at hxr
          subst hxr
          exact hassoc x hx
    refine ⟨freshRow p now r0.createdAt, _, ?_, by simp [freshRow], by simp [freshRow],
      by simp [freshRow], by simp [freshRow], hdb, ?_, rfl, rfl⟩
    · rw [upsertProfile_update_eq s p now true r0 hE, hdb]
      simp
    · rw [filter_map_comm]
      have hpred : s.profiles.filter
          (fun r => ((if r.username = p.username then freshRow p now r0.createdAt else r).username
            = p.username : Bool))
          = s.profiles.filter (fun r => r.username = p.username) := by
        refine List.filter_congr ?_
        intro r _
        by_cases h : r.username = p.username
        · simp [h, freshRow]
        · simp [h]
      rw [hpred, hE]
      simp [hr0u]

theorem sortedRoster_perm (users : List String) : (sortedRoster users).Perm users :=
  List.perm_insertionSort _ users

theorem sortedRoster_mem {u : String} {users : List String} :
    u ∈ sortedRoster users ↔ u ∈ users :=
  (sortedRoster_perm users).mem_iff

theorem downloadStep_length (fetch : String → Option RemoteProfile)
    (commitOk : String → Bool) (now : Nat) (hl : Bool)
    (acc : DbState × List UserOutcome) (u : String) :
    ((downloadStep fetch commitOk now hl acc u).2).length = acc.2.length + 1 := by
  rcases acc with ⟨s, outs⟩
  rcases hfu : fetch u with - | p
  · simp [downloadStep, hfu]
  · rcases hup : upsertProfile s p now (commitOk u) with ⟨ro, s'⟩
    rcases ro with - | row
    · simp [downloadStep, hfu, hup]
    · simp only [downloadStep, hfu, hup]
      split <;> simp

theorem downloadFold_length (fetch : String → Option RemoteProfile)
    (commitOk : String → Bool) (now : Nat) (hl : Bool) (users : List String) :
    ∀ acc : DbState × List UserOutcome,
      ((users.foldl (downloadStep fetch commitOk now hl) acc).2).length
        = acc.2.length + users.length := by
  induction users with
  | nil => intro acc; simp
  | cons u rest ih =>
    intro acc
    rw [List.foldl_cons, ih, downloadStep_length]
    simp only [List.length_cons]
    omega

theorem downloadRun_length (s : DbState) (now : Nat) (hl : Bool) (users : List String)
    (fetch : String → Option RemoteProfile) (commitOk : String → Bool) :
    ((downloadRun s now hl users fetch commitOk).2).length = users.length := by
  unfold downloadRun
  rw [downloadFold_length]
  simp [sortedRoster, (List.perm_insertionSort _ users).length_eq]

theorem downloadFold_pure (fetch : String → Option RemoteProfile) (now : Nat) (hl : Bool)
    (users : List String) :
    ∀ (s : DbState) (outs : List UserOutcome),
      dbOk s = true →
      (∀ u ∈ users, ∀ p, fetch u = some p →
        p.biographyHashtags.Nodup ∧ p.biographyMentions.Nodup) →
      (users.foldl (downloadStep fetch (fun _ => true) now hl) (s, outs)).2
        = outs ++ users.map (pureOutcome fetch hl) := by
  induction users with
  | nil => intro s outs _ _; simp
  | cons u rest ih =>
    intro s outs hwf hp
    rw [List.foldl_cons]
    rcases hfu : fetch u with - | p
    · have hstep : downloadStep fetch (fun _ => true) now hl (s, outs) u
          = (s, outs ++ [UserOutcome.fetchFailed u]) := by
        simp [downloadStep, hfu]
      rw [hstep, ih s _ hwf (fun v hv => hp v (List.mem_cons_of_mem _ hv))]
      simp [pureOutcome, hfu]
    · obtain ⟨hN1, hN2⟩ := hp u (List.mem_cons_self _ _) p hfu
      obtain ⟨row, s', heq, -, hpriv, -, -, hwf', -, -, -⟩ :=
        upsertProfile_success s p now hwf hN1 hN2
      have hstep : downloadStep fetch (fun _ => true) now hl (s, outs) u
          = (s', outs ++ [if p.isPrivate && !p.followedByViewer
              then UserOutcome.persistedOnly u
              else UserOutcome.persistedDispatched u (downloadProfileContentActions hl)]) := by
        simp only [downloadStep, hfu, heq, hpriv]
        split <;> rfl
      rw [hstep, ih s' _ hwf' (fun v hv => hp v (List.mem_cons_of_mem _ hv))]
      simp [pureOutcome, hfu]

/-! ## C3: upsert idempotence -/

/-- C3: upserting the same `RemoteProfile` payload twice (with
duplicate-free token lists, against a well-formed store) leaves exactly one
profile row for that username, whose hashtag/mention association set equals
exactly the payload's token lists (older associations are dropped by the
wholesale replacement), with no duplicate hashtag/mention rows — the second
upsert does not even grow the token tables. -/
theorem upsert_same_payload_idempotent (s : DbState) (p : RemoteProfile) (n1 n2 : Nat)
    (hwf : dbOk s = true)
    (h1 : p.biographyHashtags.Nodup) (h2 : p.biographyMentions.Nodup) :
    ∃ r1 s1 r2 s2,
      upsertProfile s p n1 true = (some r1, s1)
      ∧ upsertProfile s1 p n2 true = (some r2, s2)
      ∧ s2.profiles.filter (fun r => r.username = p.username) = [r2]
      ∧ (s2.profiles.filter (fun r => r.username = p.username)).length = 1
      ∧ r2.hashtags = p.biographyHashtags
      ∧ r2.mentions = p.biographyMentions
      ∧ s2.hashtagTable.Nodup
      ∧ s2.mentionTable.Nodup
      ∧ s2.hashtagTable = s1.hashtagTable
      ∧ s2.mentionTable = s1.mentionTable := by
  obtain ⟨r1, s1, he1, -, -, -, -, hwf1, hf1, hht1, hmn1⟩ :=
    upsertProfile_success s p n1 hwf h1 h2
  obtain ⟨r2, s2, he2, -, -, hh2, hm2, hwf2, hf2, hht2, hmn2⟩ :=
    upsertProfile_success s1 p n2 hwf1 h1 h2
  refine ⟨r1, s1, r2, s2, he1, he2, hf2, by rw [hf2]; rfl, hh2, hm2,
    ((dbOk_iff s2).mp hwf2).2.1, ((dbOk_iff s2).mp hwf2).2.2.1, ?_, ?_⟩
  · rw [hht2]
    have hnil : p.biographyHashtags.filter (fun t => ¬ t ∈ s1.hashtagTable) = [] := by
      rw [List.filter_eq_nil_iff]
      intro t ht
      have hmem : t ∈ s1.hashtagTable := by
        rw [hht1]
        by_cases hmem0 : t ∈ s.hashtagTable
        · exact List.mem_append.mpr (Or.inl hmem0)
        · exact List.mem_append.mpr
            (Or.inr (List.mem_filter.mpr ⟨ht, by simpa using hmem0⟩))
      simpa using hmem
    rw [hnil]
    simp
  · rw [hmn2]
    have hnil : p.biographyMentions.filter (fun t => ¬ t ∈ s1.mentionTable) = [] := by
      rw [List.filter_eq_nil_iff]
      intro t ht
      have hmem : t ∈ s1.mentionTable := by
        rw [hmn1]
        by_cases hmem0 : t ∈ s.mentionTable
        · exact List.mem_append.mpr (Or.inl hmem0)
        · exact List.mem_append.mpr
            (Or.inr (List.mem_filter.mpr ⟨ht, by simpa using hmem0⟩))
      simpa using hmem
    rw [hnil]
    simp

/-- C3 witness: the double upsert of the concrete public profile into the
empty store. -/
theorem upsert_same_payload_idempotent_witness :
    ∃ r1 s1 r2 s2,
      upsertProfile emptyDb bobPublic 5 true = (some r1, s1)
      ∧ upsertProfile s1 bobPublic 6 true = (some r2, s2)
      ∧ s2.profiles.filter (fun r => r.username = bobPublic.username) = [r2]
      ∧ (s2.profiles.filter (fun r => r.username = bobPublic.username)).length = 1
      ∧ r2.hashtags = bobPublic.biographyHashtags
      ∧ r2.mentions = bobPublic.biographyMentions
      ∧ s2.hashtagTable.Nodup
      ∧ s2.mentionTable.Nodup
      ∧ s2.hashtagTable = s1.hashtagTable
      ∧ s2.mentionTable = s1.mentionTable :=
  upsert_same_payload_idempotent emptyDb bobPublic 5 6 (by decide) (by decide) (by decide)

/-! ## C7: upsert failure handling -/

/-- C7: an upsert that hits a persistence failure rolls back (the state is
returned unchanged, so unrelated records are untouched) and yields the
typed failure `none` instead of raising; the download loop logs that user
as a database failure and moves on — a whole roster is still processed
entry by entry. -/
theorem upsert_failure_rolls_back_and_skips
    (s : DbState) (p : RemoteProfile) (now : Nat) (hl : Bool) (u : String)
    (fetch : String → Option RemoteProfile) (users : List String)
    (hu : fetch u = some p) :
    upsertProfile s p now false = (none, s)
    ∧ downloadRun s now hl [u] fetch (fun _ => false) = (s, [UserOutcome.dbFailed u])
    ∧ ((downloadRun s now hl users fetch (fun _ => false)).2).length = users.length := by
  refine ⟨upsertProfile_fail s p now, ?_, downloadRun_length s now hl users fetch _⟩
  unfold downloadRun sortedRoster
  rw [show List.insertionSort (fun a b => strLe a b) [u] = [u] from rfl]
  rw [List.foldl_cons, List.foldl_nil]
  simp [downloadStep, hu, upsertProfile_fail s p now]

/-- C7 witness: the concrete failing upsert of "bob" with a two-entry
roster continuing past the failure. -/
theorem upsert_failure_rolls_back_and_skips_witness :
    upsertProfile emptyDb bobPublic 0 false = (none, emptyDb)
    ∧ downloadRun emptyDb 0 false ["bob"] exampleFetch (fun _ => false)
        = (emptyDb, [UserOutcome.dbFailed "bob"])
    ∧ ((downloadRun emptyDb 0 false ["alice", "bob"] exampleFetch
        (fun _ => false)).2).length = ["alice", "bob"].length :=
  upsert_failure_rolls_back_and_skips emptyDb bobPublic 0 false "bob" exampleFetch
    ["alice", "bob"] (by decide)

/-! ## C2: per-user fault isolation -/

/-- C2: with one unfetchable and two fetchable (public, well-formed)
roster entries, the run processes all three users, dispatches exactly two
and records exactly one fetch failure; moreover for every roster and every
commit oracle the loop emits one outcome per roster entry — no per-user
failure aborts the batch. -/
theorem roster_failure_isolated
    (s : DbState) (now : Nat) (hl : Bool) (a b c : String)
    (pb pc : RemoteProfile) (fetch : String → Option RemoteProfile)
    (hwf : dbOk s = true) (ha : fetch a = none) (hb : fetch b = some pb)
    (hc : fetch c = some pc)
    (hbt : pb.biographyHashtags.Nodup) (hbm : pb.biographyMentions.Nodup)
    (hct : pc.biographyHashtags.Nodup) (hcm : pc.biographyMentions.Nodup)
    (hbp : pb.isPrivate = false) (hcp : pc.isPrivate = false) :
    ((downloadRun s now hl [a, b, c] fetch (fun _ => true)).2).length = 3
    ∧ ((downloadRun s now hl [a, b, c] fetch (fun _ => true)).2).countP
        (fun o => match o with
          | UserOutcome.persistedDispatched _ _ => true
          | _ => false) = 2
    ∧ ((downloadRun s now hl [a, b, c] fetch (fun _ => true)).2).countP
        (fun o => match o with
          | UserOutcome.fetchFailed _ => true
          | _ => false) = 1
    ∧ ∀ (users : List String) (commitOk : String → Bool),
        ((downloadRun s now hl users fetch commitOk).2).length = users.length := by
  have houts : (downloadRun s now hl [a, b, c] fetch (fun _ => true)).2
      = (sortedRoster [a, b, c]).map (pureOutcome fetch hl) := by
    unfold downloadRun
    rw [downloadFold_pure fetch now hl (sortedRoster [a, b, c]) s [] hwf ?_]
    · simp
    · intro v hv q hfq
      have hv3 : v ∈ [a, b, c] := sortedRoster_mem.mp hv
      rcases List.mem_cons.mp hv3 with rfl | hv3
      · rw [ha] at hfq; cases hfq
      rcases List.mem_cons.mp hv3 with rfl | hv3
      · rw [hb] at hfq
        cases hfq
        exact ⟨hbt, hbm⟩
      rcases List.mem_cons.mp hv3 with rfl | hv3
      · rw [hc] at hfq
        cases hfq
        exact ⟨hct, hcm⟩
      · cases hv3
  refine ⟨downloadRun_length s now hl [a, b, c] fetch _, ?_, ?_,
    fun users commitOk => downloadRun_length s now hl users fetch commitOk⟩
  · rw [houts, List.countP_map, (sortedRoster_perm [a, b, c]).countP_eq]
    simp [Function.comp, pureOutcome, ha, hb, hc, hbp, hcp, List.countP_cons]
  · rw [houts, List.countP_map, (sortedRoster_perm [a, b, c]).countP_eq]
    simp [Function.comp, pureOutcome, ha, hb, hc, hbp, hcp, List.countP_cons]

/-- C2 witness: the concrete roster with unfetchable "dave" and fetchable
public "bob" and "carol". -/
theorem roster_failure_isolated_witness :
    ((downloadRun emptyDb 0 false ["dave", "bob", "carol"] rosterFetch
        (fun _ => true)).2).length = 3
    ∧ ((downloadRun emptyDb 0 false ["dave", "bob", "carol"] rosterFetch
        (fun _ => true)).2).countP
        (fun o => match o with
          | UserOutcome.persistedDispatched _ _ => true
          | _ => false) = 2
    ∧ ((downloadRun emptyDb 0 false ["dave", "bob", "carol"] rosterFetch
        (fun _ => true)).2).countP
        (fun o => match o with
          | UserOutcome.fetchFailed _ => true
          | _ => false) = 1 := by
  have h := roster_failure_isolated emptyDb 0 false "dave" "bob" "carol"
    bobPublic carolPublic rosterFetch (by decide) (by decide) (by decide) (by decide)
    (by decide) (by decide) (by decide) (by decide) (by decide) (by decide)
  exact ⟨h.1, h.2.1, h.2.2.1⟩

/-! ## C4: size sweep -/

/-- C4 counterexample: a small image-typed file that cannot be decoded
(`Image.open` raises `OSError`) is skipped by `_process_small_file`, not
removed as the claim states. -/
theorem undecodable_file_skipped_not_removed :
    processSmallFile 256 256 undecodableFile = FileStatus.skipped
    ∧ processSmallFile 256 256 undecodableFile ≠ FileStatus.removed := by
  decide

/-- C4 (amended): in the size sweep a file is removed when either pixel
dimension is below the caller-supplied minimum (and unlink succeeds) and
kept when both dimensions meet the minimum; a file whose byte size exceeds
the large-file threshold is skipped without the image being opened (the
result does not depend on `dims`); and an image-typed file that cannot be
opened or decoded is skipped, not removed. -/
theorem processSmallFile_spec (minW minH : Nat) (f : MediaFile)
    (hstat : f.statOk = true) :
    (∀ w h, f.sizeBytes ≤ largeFileThreshold → f.dims = some (w, h) →
        ((w < minW ∨ h < minH) → f.unlinkOk = true →
          processSmallFile minW minH f = FileStatus.removed)
      ∧ (minW ≤ w → minH ≤ h → processSmallFile minW minH f = FileStatus.skipped))
    ∧ (largeFileThreshold < f.sizeBytes →
        ∀ d, processSmallFile minW minH { f with dims := d } = FileStatus.skipped)
    ∧ (f.sizeBytes ≤ largeFileThreshold → f.dims = none →
        processSmallFile minW minH f = FileStatus.skipped) := by
  refine ⟨fun w h hsz hd => ⟨fun hdim hrm => ?_, fun hw hh => ?_⟩, fun hsz d => ?_, fun hsz hd => ?_⟩
  · simp only [processSmallFile, hstat, Bool.not_true, Bool.false_eq_true, if_false,
      if_neg (by omega : ¬ largeFileThreshold < f.sizeBytes), hd, hrm]
    rw [if_neg (by omega : ¬ (minW ≤ w ∧ minH ≤ h))]
    simp
  · simp only [processSmallFile, hstat, Bool.not_true, Bool.false_eq_true, if_false,
      if_neg (by omega : ¬ largeFileThreshold < f.sizeBytes), hd]
    rw [if_pos ⟨hw, hh⟩]
  · simp [processSmallFile, hstat, hsz]
  · simp [processSmallFile, hstat, hd, if_neg (by omega : ¬ largeFileThreshold < f.sizeBytes)]

/-- C4 witness: with minimum `(256, 256)`, the decodable 100x100 image is
removed and the 300x300 image is kept; both are below the byte threshold. -/
theorem processSmallFile_spec_witness :
    processSmallFile 256 256 smallImageFile = FileStatus.removed
    ∧ processSmallFile 256 256 bigImageFile = FileStatus.skipped := by
  refine ⟨?_, ?_⟩
  · exact ((processSmallFile_spec 256 256 smallImageFile (by decide)).1 100 100
      (by decide) (by decide)).1 (by decide) (by decide)
  · exact ((processSmallFile_spec 256 256 bigImageFile (by decide)).1 300 300
      (by decide) (by decide)).2 (by decide) (by decide)

/-! ## C6: age sweep -/

/-- C6 counterexample: a file with `st_mtime = 0` has a modification
instant strictly older than the 30-day cutoff from `exampleNow`, yet
`_process_old_file` keeps it (`_is_file_older_than` treats a non-positive
`st_mtime` as invalid and returns `False`). -/
theorem epoch_mtime_file_kept :
    epochMtimeFile.mtime < exampleNow - thirtyDays
    ∧ epochMtimeFile.statOk = true
    ∧ epochMtimeFile.unlinkOk = true
    ∧ processOldFile exampleNow thirtyDays epochMtimeFile = FileStatus.skipped := by
  decide

/-- C6 (amended): in the age sweep a file (whose stat and unlink succeed)
is removed exactly when its modification time is positive and strictly
older than the caller-supplied duration threshold measured from the current
time; a non-positive `st_mtime` is treated as invalid and the file is
kept. -/
theorem processOldFile_removed_iff (now deltaSecs : Int) (f : MediaFile)
    (hstat : f.statOk = true) (hrm : f.unlinkOk = true) :
    processOldFile now deltaSecs f = FileStatus.removed
      ↔ (0 < f.mtime ∧ f.mtime < now - deltaSecs) := by
  have hb : isFileOlderThan now deltaSecs f
      = (decide (0 < f.mtime) && decide (f.mtime < now - deltaSecs)) := by
    unfold isFileOlderThan
    rw [hstat]
    simp only [Bool.not_true, Bool.false_eq_true, if_false]
    by_cases h0 : f.mtime ≤ 0
    · rw [if_pos h0, decide_eq_false (by omega : ¬ 0 < f.mtime)]
      simp
    · rw [if_neg h0, decide_eq_true (by omega : 0 < f.mtime)]
      simp
  unfold processOldFile
  rw [hb, hrm]
  by_cases h1 : 0 < f.mtime <;> by_cases h2 : f.mtime < now - deltaSecs <;>
    simp [h1, h2]

/-- C6 witness: with a 30-day cutoff from `exampleNow`, the file modified
40 days ago is removed and the file modified 10 days ago is not. -/
theorem processOldFile_removed_iff_witness :
    processOldFile exampleNow thirtyDays fortyDayOldFile = FileStatus.removed
    ∧ processOldFile exampleNow thirtyDays tenDayOldFile ≠ FileStatus.removed := by
  constructor
  · exact (processOldFile_removed_iff exampleNow thirtyDays fortyDayOldFile
      (by decide) (by decide)).mpr (by decide)
  · intro h
    have := (processOldFile_removed_iff exampleNow thirtyDays tenDayOldFile
      (by decide) (by decide)).mp h
    exact absurd this (by decide)

/-! ## C9: sweep summaries -/

/-- C9 counterexample: `remove_small_images` on an empty image-candidate
set logs only "No image files found to process" and returns without
producing a removal summary. -/
theorem removeSmallImages_empty_no_summary :
    removeSmallImages 256 256 [] = none := by
  decide

/-- C9 (amended): the age sweep produces a removal summary on every input
(including an empty candidate set) that reports the removed count and lists
every path whose removal failed; the size sweep produces such a summary
whenever the image-candidate set is nonempty, and when it is empty it
returns early with only an informational message and no removal summary.
No failed path is dropped from a produced summary. -/
theorem sweep_summaries (now deltaSecs : Int) (minW minH : Nat)
    (files imgs : List MediaFile) (himgs : getImageFiles imgs ≠ []) :
    (∃ s, removeOldFiles now deltaSecs files = some s
      ∧ s.removedCount =
          (files.filter (fun f => processOldFile now deltaSecs f = FileStatus.removed)).length
      ∧ ∀ f ∈ files, processOldFile now deltaSecs f = FileStatus.failed →
          f.path ∈ s.failedPaths)
    ∧ (∃ s, removeSmallImages minW minH imgs = some s
      ∧ s.removedCount =
          ((getImageFiles imgs).filter
            (fun f => processSmallFile minW minH f = FileStatus.removed)).length
      ∧ ∀ f ∈ getImageFiles imgs, processSmallFile minW minH f = FileStatus.failed →
          f.path ∈ s.failedPaths) := by
  constructor
  · refine ⟨_, rfl, ?_, ?_⟩
    · rw [summarize_spec]
      simp only [List.filter_map, List.length_map]
      rfl
    · intro f hf hfail
      exact summarize_failed_mem _ _ _
        (List.mem_map.mpr ⟨f, hf, by rw [hfail]⟩) rfl
  · rw [removeSmallImages]
    rw [if_neg (by simpa [List.isEmpty_iff] using himgs)]
    refine ⟨_, rfl, ?_, ?_⟩
    · rw [summarize_spec]
      simp only [List.filter_map, List.length_map]
      rfl
    · intro f hf hfail
      exact summarize_failed_mem _ _ _
        (List.mem_map.mpr ⟨f, hf, by rw [hfail]⟩) rfl

/-- C9 witness: a concrete sweep over a failing file and an empty age
sweep both produce summaries; the failing path is listed. -/
theorem sweep_summaries_witness :
    (∃ s, removeOldFiles exampleNow thirtyDays [] = some s)
    ∧ (∃ s, removeSmallImages 256 256
        [{ smallImageFile with unlinkOk := false }] = some s
      ∧ "d/s.jpg" ∈ s.failedPaths) := by
  constructor
  · exact ⟨_, ((sweep_summaries exampleNow thirtyDays 256 256 []
      [{ smallImageFile with unlinkOk := false }] (by decide)).1).choose_spec.1⟩
  · obtain ⟨s, hs, _, hmem⟩ :=
      (sweep_summaries exampleNow thirtyDays 256 256 []
        [{ smallImageFile with unlinkOk := false }] (by decide)).2
    exact ⟨s, hs, hmem { smallImageFile with unlinkOk := false } (by decide) (by decide)⟩

/-! ## C5, C10: roster importer -/

theorem mapGet_mapSet_self (m : List (String × Bool)) (u : String) (b : Bool) :
    mapGet (mapSet m u b) u = some b := by
  induction m with
  | nil => simp [mapSet, mapGet, List.find?]
  | cons kv rest ih =>
    by_cases h : kv.1 = u
    · simp [mapSet, h, mapGet, List.find?]
    · simp only [mapSet, if_neg h]
      rw [mapGet, List.find?_cons_of_neg _ (by simpa using h)]
      exact ih

theorem mapGet_mapSet_ne (m : List (String × Bool)) (u v : String) (b : Bool)
    (h : v ≠ u) : mapGet (mapSet m u b) v = mapGet m v := by
  induction m with
  | nil => simp [mapSet, mapGet, List.find?, Ne.symm h]
  | cons kv rest ih =>
    by_cases hk : kv.1 = u
    · rw [mapSet, if_pos hk, mapGet, mapGet,
        List.find?_cons_of_neg _ (by simpa using h.symm),
        List.find?_cons_of_neg _ (by simp [hk]; exact fun hv => absurd hv.symm h)]
    · rw [mapSet, if_neg hk]
      by_cases hv : kv.1 = v
      · rw [mapGet, mapGet, List.find?_cons_of_pos _ (by simpa using hv),
          List.find?_cons_of_pos _ (by simpa using hv)]
      · rw [mapGet, mapGet, List.find?_cons_of_neg _ (by simpa using hv),
          List.find?_cons_of_neg _ (by simpa using hv)]
        exact ih

/-- C5: after one classification call (`all_users[user] = flag`), the
username is contained in exactly one of the derived public/private
tracking sets — the one matching the flag; in particular a username absent
from both sets is put by `currentIsPrivate = True` into the private set and
not into the public set. -/
theorem classification_exactly_one (m : List (String × Bool)) (u : String) (p : Bool) :
    (inPrivateSet (mapSet m u p) u ↔ p = true)
    ∧ (inPublicSet (mapSet m u p) u ↔ p = false)
    ∧ ¬ (inPrivateSet (mapSet m u p) u ∧ inPublicSet (mapSet m u p) u)
    ∧ (mapGet m u = none →
        inPrivateSet (mapSet m u true) u ∧ ¬ inPublicSet (mapSet m u true) u) := by
  have hself := mapGet_mapSet_self m u p
  have hselfT := mapGet_mapSet_self m u true
  refine ⟨?_, ?_, ?_, ?_⟩
  · rw [inPrivateSet, hself]; cases p <;> simp
  · rw [inPublicSet, hself]; cases p <;> simp
  · rintro ⟨h1, h2⟩
    rw [inPrivateSet, hself] at h1
    rw [inPublicSet, hself] at h2
    cases p <;> simp_all
  · intro _
    constructor
    · rw [inPrivateSet, hselfT]
    · rw [inPublicSet, hselfT]; simp

/-- C5 witness: the username `"zoe"`, absent from the empty tracking map,
lands in the private set and not the public set after one classification
with `currentIsPrivate = True`. -/
theorem classification_exactly_one_witness :
    mapGet [] "zoe" = none
    ∧ inPrivateSet (mapSet [] "zoe" true) "zoe"
    ∧ ¬ inPublicSet (mapSet [] "zoe" true) "zoe" := by
  have h := (classification_exactly_one [] "zoe" true).2.2.2 (by decide)
  exact ⟨by decide, h.1, h.2⟩

theorem mapGet_foldl_setTrue (us : List String) (m : List (String × Bool)) (u : String) :
    mapGet (us.foldl (fun m v => mapSet m v true) m) u
      = if u ∈ us then some true else mapGet m u := by
  induction us generalizing m with
  | nil => simp
  | cons v rest ih =>
    rw [List.foldl_cons, ih]
    by_cases hv : u ∈ rest
    · simp [hv]
    · by_cases huv : u = v
      · subst huv
        simp [hv, mapGet_mapSet_self]
      · simp [hv, huv, mapGet_mapSet_ne _ _ _ _ huv]

/-- C10: a username (case-insensitively) present in both the public-users
and the private-users JSON lists is recorded as private: the private loop
runs after the public loop and overwrites the entry in the username map. -/
theorem both_lists_recorded_private (pubRaw privRaw : List String) (u : String)
    (hpub : pyLower u ∈ pubRaw.map pyLower) (hpriv : pyLower u ∈ privRaw.map pyLower) :
    inPrivateSet (buildUserMap (loadUsersFromJson pubRaw) (loadUsersFromJson privRaw))
      (pyLower u) := by
  have hmem : pyLower u ∈ loadUsersFromJson privRaw := by
    rw [loadUsersFromJson, List.mem_dedup]
    exact hpriv
  rw [inPrivateSet, buildUserMap, mapGet_foldl_setTrue, if_pos hmem]

/-- C10 witness: `"Joe"` appears (case-insensitively) in both JSON lists and
is imported as private. -/
theorem both_lists_recorded_private_witness :
    pyLower "Joe" ∈ (["ann", "JOE"].map pyLower)
    ∧ pyLower "Joe" ∈ (["joE", "zed"].map pyLower)
    ∧ inPrivateSet (buildUserMap (loadUsersFromJson ["ann", "JOE"])
        (loadUsersFromJson ["joE", "zed"])) (pyLower "Joe") :=
  ⟨by decide, by decide,
    both_lists_recorded_private ["ann", "JOE"] ["joE", "zed"] "Joe" (by decide) (by decide)⟩

/-! ## C8: empty roster and fatal conditions -/

/-- C8: with a cookie file present and an empty roster, `run` warns and
returns — for every value of the authentication oracle, so no
authentication is attempted and no downloads occur; and the run is fatal
only when the credential store is missing or authentication fails. -/
theorem empty_roster_noop_and_fatal_only_auth
    (cfOpt : Option String) (users : List String) (authOk : Bool) (s : DbState)
    (now : Nat) (hl : Bool) (fetch : String → Option RemoteProfile)
    (commitOk : String → Bool) :
    (∀ (cf : String) (a : Bool),
        instagramRun (some cf) [] a s now hl fetch commitOk = RunOutcome.warnedEmptyRoster)
    ∧ ((instagramRun cfOpt users authOk s now hl fetch commitOk).isFatal = true →
        cfOpt = none ∨ authOk = false) := by
  constructor
  · intro cf a
    rfl
  · intro hfatal
    cases cfOpt with
    | none => exact Or.inl rfl
    | some cf =>
      by_cases hu : users.isEmpty
      · rw [instagramRun, if_pos hu] at hfatal
        cases hfatal
      · cases authOk with
        | false => exact Or.inr rfl
        | true =>
          rw [instagramRun, if_neg hu] at hfatal
          simp only [Bool.not_true, Bool.false_eq_true, if_false] at hfatal
          cases hfatal

/-- C8 witness: a concrete empty-roster run is a warned no-op, and a run
with a missing credential store is fatal with the corresponding
condition. -/
theorem empty_roster_noop_and_fatal_only_auth_witness :
    instagramRun (some "cookies.sqlite") [] false emptyDb 0 false exampleFetch
        (fun _ => true) = RunOutcome.warnedEmptyRoster
    ∧ ((none : Option String) = none ∨ true = false) := by
  constructor
  · exact (empty_roster_noop_and_fatal_only_auth (some "cookies.sqlite") [] false emptyDb
      0 false exampleFetch (fun _ => true)).1 "cookies.sqlite" false
  · exact (empty_roster_noop_and_fatal_only_auth none ["alice"] true emptyDb
      0 false exampleFetch (fun _ => true)).2 (by decide)

/-! ## C1: dispatch decision -/

/-- C1 evaluated at the failing input: for the fetched-and-persisted
private, not-followed profile ("alice") the loop `continue`s with no
download call at all — in particular `download_profilepic_if_new` is never
invoked, contrary to the claim, the spec and the repository's own test
`test_download_private_profile_not_followed`; for the public profile
("bob") the full content download is invoked with `tagged=False`,
`stories=True`, `reels=True` as claimed. -/
theorem private_not_followed_gets_no_download :
    (downloadRun emptyDb 0 false ["alice", "bob"] exampleFetch (fun _ => true)).2
      = [UserOutcome.persistedOnly "alice",
         UserOutcome.persistedDispatched "bob" [DownloadAction.fullContent false true true]] := by
  decide

end Instalker
